import Mathlib

/-!
Verification development for the SmartSpend expense-tracker repository.

The definitions below are a shallow embedding of the TypeScript route
handlers and of the forecast-text parser:

* `app/api/forecast/route.ts` — `getLatestForecast`, `parseForecastText`, `GET`;
* `app/api/statistics/route.ts` — `totalExpenses`, `transactionCount`,
  `averageExpense`, `monthlyChange`, `expensesOverTime`;
* `app/api/expenses/route.ts` — `GET` with its filter list;
* `app/api/budgets/route.ts` — `GET`;
* `app/api/recurring-expenses/route.ts` — `GET` with its filter list.

JavaScript numbers that arise here are modelled as `Rat` (all the claims
under study are about branch structure and exact defaults, not float
rounding); a JS `NaN` produced by `parseInt` is modelled as `none` in
`Option Nat`.  Calendar instants are modelled at day resolution as a
(month-index, day-of-month) pair with lexicographic order; the
millisecond-level bound `nextMonth.getTime() - 1` used by the statistics
route is the strict bound `dateLt d (month start of the next month)`.
-/

namespace SmartSpend

/-- A calendar instant at day resolution: `ym` is an absolute month index
(year × 12 + month) and `day` the 1-based day of month.  This is the image
of a JS `Date` under the projections the routes actually use
(month arithmetic via `startOfMonth`/`setMonth` and order comparisons). -/
structure CalDate where
  ym : Nat
  day : Nat
  deriving DecidableEq, Repr

/-- `a <= b` on calendar instants (JS `Date` comparison). -/
def dateLe (a b : CalDate) : Bool :=
  a.ym < b.ym || (a.ym == b.ym && a.day ≤ b.day)

/-- `a < b` on calendar instants (JS `Date` comparison). -/
def dateLt (a b : CalDate) : Bool :=
  a.ym < b.ym || (a.ym == b.ym && a.day < b.day)

/-! ### The forecast-text parser (`app/api/forecast/route.ts`) -/

/-- The trend union type of `parseForecastText`:
`'higher' | 'lower'` in the source. -/
inductive Trend where
  | higher
  | lower
  deriving DecidableEq, Repr

/-- Characters matched by the class `[0-9,]` in the amount regex. -/
def isAmtChar (c : Char) : Bool := c.isDigit || c == ','

/-- First match of `/\$([0-9,]+)/` over the input, returning the capture
group: scanning left to right, a position matches when it holds `'$'`
followed by a non-empty run of `[0-9,]`, and the (greedy) capture is that
maximal run. -/
def findDollarMatch : List Char → Option (List Char)
  | [] => none
  | '$' :: rest =>
      let run := rest.takeWhile isAmtChar
      if run.isEmpty then findDollarMatch rest else some run
  | _ :: rest => findDollarMatch rest

/-- The tail `% (higher|lower)` of the percent regex, checked right after
the digit run: a `'%'`, a space, then the literal `higher` or `lower`. -/
def percentTail (l : List Char) : Option Trend :=
  match l with
  | '%' :: ' ' :: rest =>
      if List.isPrefixOf "higher".data rest then some Trend.higher
      else if List.isPrefixOf "lower".data rest then some Trend.lower
      else none
  | _ => none

/-- First match of `/([0-9]+)% (higher|lower)/`, returning the digit
capture and the matched direction word.  Scanning left to right, a
position matches when it starts a digit run whose maximal extent is
followed by `percentTail`; on failure the scan resumes one character
later, exactly as the JS regex engine does. -/
def findPercentMatch : List Char → Option (List Char × Trend)
  | [] => none
  | c :: rest =>
      if c.isDigit then
        let run := (c :: rest).takeWhile Char.isDigit
        match percentTail ((c :: rest).drop run.length) with
        | some w => some (run, w)
        | none => findPercentMatch rest
      else findPercentMatch rest

/-- JS `String.prototype.replace(',', '')` with a string pattern: removes
only the first comma. -/
def removeFirstComma : List Char → List Char
  | [] => []
  | ',' :: rest => rest
  | c :: rest => c :: removeFirstComma rest

/-- JS `parseInt(s, 10)` on the strings this parser feeds it (runs of
digits and commas): the leading digit run is read as a number, and an
input with no leading digit yields `NaN`, modelled as `none`. -/
def jsParseInt (l : List Char) : Option Nat :=
  let ds := l.takeWhile Char.isDigit
  if ds.isEmpty then none
  else some (ds.foldl (fun acc c => acc * 10 + (c.toNat - 48)) 0)

/-- The record produced by `parseForecastText`; `none` in a numeric field
models a JS `NaN`. -/
structure ForecastData where
  amount : Option Nat
  percentChange : Option Nat
  trend : Trend
  deriving DecidableEq, Repr

/-- `parseForecastText` from `app/api/forecast/route.ts`: extract the
dollar amount via `/\$([0-9,]+)/` (defaulting to 0, after removing the
first comma), the percentage via `/([0-9]+)% (higher|lower)/`
(defaulting to 0), and the trend word (defaulting to `'higher'`). -/
def parseForecastText (s : String) : ForecastData :=
  let amount :=
    match findDollarMatch s.data with
    | some g => jsParseInt (removeFirstComma g)
    | none => some 0
  let pm := findPercentMatch s.data
  { amount := amount
    percentChange :=
      match pm with
      | some (d, _) => jsParseInt d
      | none => some 0
    trend :=
      match pm with
      | some (_, w) => w
      | none => Trend.higher }

/-! ### Relational rows (`lib/db/schema`) -/

/-- A row of the `expenses` table, with the columns the handlers use. -/
structure Expense where
  id : String
  userId : String
  amount : Rat
  description : String
  date : CalDate
  categoryId : String
  deriving DecidableEq, Repr

/-- A row of the `budgets` table. -/
structure Budget where
  id : String
  userId : String
  amount : Rat
  period : String
  startDate : CalDate
  categoryId : Option String
  deriving DecidableEq, Repr

/-- A row of the `categories` table. -/
structure Category where
  id : String
  userId : String
  name : String
  color : String
  icon : String
  isDefault : Bool
  deriving DecidableEq, Repr

/-- A row of the `recurringExpenses` table. -/
structure RecurringExpense where
  id : String
  userId : String
  amount : Rat
  description : String
  frequency : String
  startDate : CalDate
  endDate : Option CalDate
  categoryId : String
  deriving DecidableEq, Repr

/-- The database contents visible to the handlers under study. -/
structure DbState where
  expenses : List Expense
  budgets : List Budget
  categories : List Category
  recurring : List RecurringExpense
  deriving DecidableEq, Repr

/-! ### The statistics route (`app/api/statistics/route.ts`) -/

/-- SQL `sum(amount)` over the rows satisfying a predicate, with the
route's `result[0]?.total || 0` null-to-zero coercion (the sum of an
empty selection is 0). -/
def sumBy (p : Expense → Bool) (db : List Expense) : Rat :=
  ((db.filter p).map Expense.amount).sum

/-- Row filter of the statistics queries that select a user's expenses in
the requested `[startDate, endDate]` range. -/
def inRange (uid : String) (s e : CalDate) (r : Expense) : Bool :=
  r.userId == uid && dateLe s r.date && dateLe r.date e

/-- `totalExpenses`: sum of the user's expense amounts in the range. -/
def totalExpenses (db : List Expense) (uid : String) (s e : CalDate) : Rat :=
  sumBy (inRange uid s e) db

/-- `transactionCount`: SQL `count()` over the same selection, with the
`result[0]?.count || 0` coercion. -/
def transactionCount (db : List Expense) (uid : String) (s e : CalDate) : Nat :=
  (db.filter (inRange uid s e)).length

/-- `averageExpense = transactionCount > 0 ? totalExpenses / transactionCount : 0`. -/
def averageExpense (total : Rat) (cnt : Nat) : Rat :=
  if 0 < cnt then total / cnt else 0

/-- The statistics route's `averageExpense` value for a user and range. -/
def averageExpenseOf (db : List Expense) (uid : String) (s e : CalDate) : Rat :=
  averageExpense (totalExpenses db uid s e) (transactionCount db uid s e)

/-- `monthlyChange`: initialised to 0 and only assigned the percent
formula when `previousMonthTotal > 0`. -/
def monthlyChange (previousMonthTotal currentMonthTotal : Rat) : Rat :=
  if 0 < previousMonthTotal then
    (currentMonthTotal - previousMonthTotal) / previousMonthTotal * 100
  else 0

/-- The `months` array construction: starting from
`startOfMonth(startDate)` (month index `m`, day 1), push one month per
iteration while `currentDate <= end`, advancing by `setMonth(+1)`. -/
def monthsFrom (m : Nat) (e : CalDate) : List Nat :=
  if dateLe ⟨m, 1⟩ e then m :: monthsFrom (m + 1) e else []
termination_by e.ym + 1 - m
decreasing_by
  simp only [dateLe, Bool.or_eq_true, decide_eq_true_eq, Bool.and_eq_true, beq_iff_eq] at *
  omega

/-- Membership of an expense date in the month window
`[monthStart, nextMonth.getTime() - 1]`, i.e. at or after the first
instant of month `m` and strictly before the first instant of month
`m + 1`. -/
def inMonth (m : Nat) (d : CalDate) : Bool :=
  dateLe ⟨m, 1⟩ d && dateLt d ⟨m + 1, 1⟩

/-- Per-month `sum(amount)` of one user's expenses, with null-to-zero. -/
def monthTotal (db : List Expense) (uid : String) (m : Nat) : Rat :=
  sumBy (fun r => r.userId == uid && inMonth m r.date) db

/-- Per-month `count()` of one user's expenses, with null-to-zero. -/
def monthCount (db : List Expense) (uid : String) (m : Nat) : Nat :=
  (db.filter (fun r => r.userId == uid && inMonth m r.date)).length

/-- One entry of the `expensesOverTime` array. -/
structure MonthEntry where
  month : Nat
  total : Rat
  count : Nat
  deriving DecidableEq, Repr

/-- `expensesOverTime`: one entry per generated month, carrying that
month's total and transaction count for the user. -/
def expensesOverTime (db : List Expense) (uid : String) (s e : CalDate) :
    List MonthEntry :=
  (monthsFrom s.ym e).map fun m =>
    { month := m, total := monthTotal db uid m, count := monthCount db uid m }

/-! ### HTTP responses -/

/-- A `NextResponse.json` value: either a 200/201 payload or an error
object `{ error: msg }` with a status code. -/
inductive ApiResponse (α : Type) where
  | ok (body : α) (status : Nat)
  | err (status : Nat) (msg : String)
  deriving DecidableEq, Repr

/-! ### The forecast route (`app/api/forecast/route.ts`) -/

/-- Body of the forecast GET response. -/
structure ForecastBody where
  forecast : ForecastData
  lastUpdated : String
  forecastText : String
  accuracy : Option Rat
  deriving DecidableEq, Repr

/-- The world state the forecast route can observe or change: the result
of reading `ml_pipeline/latest_forecast.txt` (`Except.error` carries the
raw I/O error message), the database, and an abstract count of pipeline
runs (bumped only by invoking the ML pipeline, which no code below
does). -/
structure SystemState where
  artifact : Except String String
  db : DbState
  pipelineRuns : Nat
  deriving Repr

/-- `getLatestForecast`: read the artifact file and trim it; a read
failure is rethrown to the caller. -/
def getLatestForecast (st : SystemState) :
    Except String String × SystemState :=
  (st.artifact.map String.trim, st)

/-- The forecast route `GET`: read the latest artifact, parse it, and
answer with the parsed forecast; any error is caught and answered as a
generic 500 `{ error: 'Failed to generate forecast' }`. `now` is the
ISO timestamp taken for `lastUpdated`. -/
def forecastRouteGET (st : SystemState) (now : String) :
    ApiResponse ForecastBody × SystemState :=
  let (r, st') := getLatestForecast st
  match r with
  | Except.ok txt =>
      (ApiResponse.ok
        { forecast := parseForecastText txt
          lastUpdated := now
          forecastText := txt
          accuracy := none } 200, st')
  | Except.error _ =>
      (ApiResponse.err 500 "Failed to generate forecast", st')

/-! ### The expenses route `GET` (`app/api/expenses/route.ts`) -/

/-- Query parameters of the expenses GET (already decoded: the route
parses `minAmount`/`maxAmount` with `parseFloat`, modelled as the carried
rational). -/
structure ExpenseQuery where
  startDate : Option CalDate
  endDate : Option CalDate
  categoryId : Option String
  minAmount : Option Rat
  maxAmount : Option Rat
  deriving DecidableEq, Repr

/-- The conjunction of the route's filter array: the unconditional
`eq(expenses.userId, userId)` plus one optional clause per supplied
parameter. -/
def expenseFilters (uid : String) (q : ExpenseQuery) (r : Expense) : Bool :=
  r.userId == uid
  && (match q.startDate with | some d => dateLe d r.date | none => true)
  && (match q.endDate with | some d => dateLe r.date d | none => true)
  && (match q.categoryId with | some c => r.categoryId == c | none => true)
  && (match q.minAmount with | some a => decide (a ≤ r.amount) | none => true)
  && (match q.maxAmount with | some a => decide (r.amount ≤ a) | none => true)

/-- `orderBy(desc(expenses.date))`: insertion step. -/
def insertByDateDesc (x : Expense) : List Expense → List Expense
  | [] => [x]
  | y :: ys =>
      if dateLe y.date x.date then x :: y :: ys else y :: insertByDateDesc x ys

/-- `orderBy(desc(expenses.date))`: stable sort by descending date. -/
def sortByDateDesc : List Expense → List Expense
  | [] => []
  | x :: xs => insertByDateDesc x (sortByDateDesc xs)

/-- The row list answered by the expenses GET for an authenticated user. -/
def expensesQuery (uid : String) (q : ExpenseQuery) (db : DbState) :
    List Expense :=
  sortByDateDesc (db.expenses.filter (expenseFilters uid q))

/-- The expenses route `GET`: 401 before touching the database when
Clerk reports no `userId`, otherwise the filtered, sorted rows. -/
def expensesGET (auth : Option String) (q : ExpenseQuery) (db : DbState) :
    ApiResponse (List Expense) × DbState :=
  match auth with
  | none => (ApiResponse.err 401 "Unauthorized", db)
  | some uid => (ApiResponse.ok (expensesQuery uid q db) 200, db)

/-! ### The budgets route `GET` (`app/api/budgets/route.ts`) -/

/-- Category lookup used per budget: `select … where eq(categories.id,
cid) limit 1`, attaching the row when found. -/
def lookupCategory (db : DbState) (cid : String) : Option Category :=
  (db.categories.filter (fun c => c.id == cid)).head?

/-- The budgets route `GET`: 401 before touching the database when there
is no `userId`, otherwise the user's budgets, each paired with its
category row when `categoryId` is set and found, else `null`. -/
def budgetsGET (auth : Option String) (db : DbState) :
    ApiResponse (List (Budget × Option Category)) × DbState :=
  match auth with
  | none => (ApiResponse.err 401 "Unauthorized", db)
  | some uid =>
      let userBudgets := db.budgets.filter (fun b => b.userId == uid)
      (ApiResponse.ok
        (userBudgets.map fun b =>
          (b, match b.categoryId with
              | some cid => lookupCategory db cid
              | none => none)) 200, db)

/-! ### The recurring-expenses route `GET` (`app/api/recurring-expenses/route.ts`) -/

/-- Query parameters of the recurring-expenses GET; `active` carries the
raw query string compared against `'true'` by the route. -/
structure RecurringQuery where
  categoryId : Option String
  frequency : Option String
  active : Option String
  deriving DecidableEq, Repr

/-- The route's filter conjunction: the unconditional user filter, the
optional category and frequency equalities, and — when `active ===
'true'` — `endDate IS NULL OR endDate >= now`. -/
def recurringFilters (uid : String) (q : RecurringQuery) (now : CalDate)
    (r : RecurringExpense) : Bool :=
  r.userId == uid
  && (match q.categoryId with | some c => r.categoryId == c | none => true)
  && (match q.frequency with | some f => r.frequency == f | none => true)
  && (if q.active == some "true" then
        match r.endDate with
        | none => true
        | some d => dateLe now d
      else true)

/-- `orderBy(desc(recurringExpenses.startDate))`: insertion step. -/
def insertByStartDesc (x : RecurringExpense) :
    List RecurringExpense → List RecurringExpense
  | [] => [x]
  | y :: ys =>
      if dateLe y.startDate x.startDate then x :: y :: ys
      else y :: insertByStartDesc x ys

/-- `orderBy(desc(recurringExpenses.startDate))`. -/
def sortByStartDesc : List RecurringExpense → List RecurringExpense
  | [] => []
  | x :: xs => insertByStartDesc x (sortByStartDesc xs)

/-- The row list answered by the recurring-expenses GET for an
authenticated user. -/
def recurringQuery (uid : String) (q : RecurringQuery) (now : CalDate)
    (db : DbState) : List RecurringExpense :=
  sortByStartDesc (db.recurring.filter (recurringFilters uid q now))

/-- The recurring-expenses route `GET`: 401 before touching the database
when there is no `userId`, otherwise the filtered, sorted rows. -/
def recurringGET (auth : Option String) (q : RecurringQuery) (now : CalDate)
    (db : DbState) : ApiResponse (List RecurringExpense) × DbState :=
  match auth with
  | none => (ApiResponse.err 401 "Unauthorized", db)
  | some uid => (ApiResponse.ok (recurringQuery uid q now db) 200, db)

/-! ### The anomaly scorer (spec §4.3) -/

/-- Modelled from the spec: an `AnomalyFlag` — `{period_or_transaction_id,
observed_amount, expected_range (low, high), severity_score (0–1),
is_anomaly}`.  The anomaly scorer is absent from the repository source
(the README/UI reference it only as placeholders), so it is modelled
from spec §4.3 and §3. -/
structure AnomalyFlag where
  index : Nat
  observed : Rat
  expectedLow : Rat
  expectedHigh : Rat
  severity : Rat
  isAnomaly : Bool
  deriving DecidableEq, Repr

/-- Ascending insertion step for rational values. -/
def insertRat (x : Rat) : List Rat → List Rat
  | [] => [x]
  | y :: ys => if x ≤ y then x :: y :: ys else y :: insertRat x ys

/-- Ascending insertion sort for rational values. -/
def sortRat : List Rat → List Rat
  | [] => []
  | x :: xs => insertRat x (sortRat xs)

/-- Modelled from the spec: the Anomaly Scorer's configuration — the
minimum sample count below which scoring is undefined (spec default 10)
and the deviation quantile marking `is_anomaly` (spec default: top 5%,
i.e. quantile 95/100).  The scorer itself is missing from the source. -/
structure ScorerConfig where
  minSamples : Nat
  quantile : Rat

/-- Modelled from the spec: `score(series_or_transactions) ->
list[AnomalyFlag]` (spec §4.3), as the z-score-style baseline the spec
allows.  The anomaly scorer is not implemented in the repository source,
so this follows the spec's words: fewer than the minimum sample count
returns an empty flag list; otherwise each observation's absolute
deviation from the mean is scored, the `is_anomaly` cut is the
configured quantile of the deviations, and severity is the deviation
normalised into [0, 1] by the largest deviation. -/
def score (cfg : ScorerConfig) (obs : List Rat) : List AnomalyFlag :=
  if obs.length < cfg.minSamples then []
  else
    let n : Rat := (obs.length : Rat)
    let mean := obs.sum / n
    let devs := obs.map (fun x => |x - mean|)
    let sorted := sortRat devs
    let idx : Nat := min (obs.length - 1) (cfg.quantile * n).floor.toNat
    let thr := sorted.getD idx 0
    let maxDev := sorted.getD (obs.length - 1) 0
    (obs.enum).map fun xi =>
      let dev := |xi.2 - mean|
      { index := xi.1
        observed := xi.2
        expectedLow := mean - thr
        expectedHigh := mean + thr
        severity := if maxDev = 0 then 0 else dev / maxDev
        isAnomaly := decide (thr < dev) }

/-! ### The spec's trend contract (spec §4.2) -/

/-- The spec's three-valued trend enumeration:
`increase | decrease | flat`. -/
inductive TrendSpec where
  | increase
  | decrease
  | flat
  deriving DecidableEq, Repr

/-- The spec's trend rule: `increase` if `percent_change > threshold_pct`,
`decrease` if `< −threshold_pct`, else `flat` (stated here from the
spec's words, for comparison with the parser's output). -/
def specTrend (pct threshold : Rat) : TrendSpec :=
  if threshold < pct then TrendSpec.increase
  else if pct < -threshold then TrendSpec.decrease
  else TrendSpec.flat

/-- The natural reading of the parser's two trend words inside the
spec's enumeration. -/
def trendToSpec : Trend → TrendSpec
  | Trend.higher => TrendSpec.increase
  | Trend.lower => TrendSpec.decrease

/-! ## Claim C1 — the percent change at a zero base -/

/-- C1, counterexample: with a previous total of 0 and a current total of
50, the route's `monthlyChange` is 0, not the 100 the claim requires. -/
theorem percentChange_zero_base_counterexample :
    monthlyChange 0 50 = 0 ∧ monthlyChange 0 50 ≠ 100 := by
  norm_num [monthlyChange]

/-- C1 (amended): the percent change equals
`(current − previous) / previous × 100` whenever the previous total is
positive, and in the degenerate case `previous = 0` it equals 0
regardless of the current amount (also when the current amount is
positive), never a NaN and never an exception — the division is guarded
by the positivity test. -/
theorem percentChange_amended (prev cur : Rat) (hp : 0 ≤ prev) (hc : 0 ≤ cur) :
    (0 < prev → monthlyChange prev cur = (cur - prev) / prev * 100) ∧
    (prev = 0 → monthlyChange prev cur = 0) := by
  refine ⟨fun h => ?_, fun h => ?_⟩
  · simp [monthlyChange, h]
  · subst h; simp [monthlyChange]

/-- C1, witness: the amended theorem evaluated at previous = 2,
current = 3. -/
theorem percentChange_amended_witness :
    (0 < (2 : Rat) → monthlyChange 2 3 = (3 - 2) / 2 * 100) ∧
    ((2 : Rat) = 0 → monthlyChange 2 3 = 0) :=
  percentChange_amended 2 3 (by norm_num) (by norm_num)

/-! ## Claim C2 — behaviour of the forecast GET on a read failure -/

/-- A state whose artifact read fails with a raw filesystem error. -/
def failedReadState : SystemState :=
  { artifact := Except.error "ENOENT: no such file or directory"
    db := { expenses := [], budgets := [], categories := [], recurring := [] }
    pipelineRuns := 0 }

/-- C2, counterexample: when reading the artifact fails, the forecast
GET answers with the 500 error payload
`{ error: 'Failed to generate forecast' }` — it does not keep serving a
previous forecast. -/
theorem forecast_failure_counterexample :
    (forecastRouteGET failedReadState "2025-01-01T00:00:00.000Z").1 =
      ApiResponse.err 500 "Failed to generate forecast" := rfl

/-- C2 (amended): on any failure to obtain the forecast, the GET
endpoint returns the generic 500 payload
`{ error: 'Failed to generate forecast' }` — the same response whatever
the raw underlying error message was, so no raw pipeline or file error
ever reaches the end user — and it leaves all state unchanged; it does
not, however, serve the previously published forecast. -/
theorem forecast_failure_amended (raw : String) (db : DbState) (n : Nat)
    (now : String) :
    (forecastRouteGET ⟨Except.error raw, db, n⟩ now).1 =
      ApiResponse.err 500 "Failed to generate forecast" ∧
    (forecastRouteGET ⟨Except.error raw, db, n⟩ now).2 =
      ⟨Except.error raw, db, n⟩ :=
  ⟨rfl, rfl⟩

/-! ## Claim C6 — unauthenticated requests -/

/-- C6: with no authenticated `userId`, the expenses GET, the budgets
GET and the recurring-expenses GET all answer
`{ error: 'Unauthorized' }` with status 401, leave the database
unchanged, and read nothing from it — the response is this constant for
every database contents and every query parameters. -/
theorem unauthenticated_guard (db : DbState) (q1 : ExpenseQuery)
    (q2 : RecurringQuery) (now : CalDate) :
    expensesGET none q1 db = (ApiResponse.err 401 "Unauthorized", db) ∧
    budgetsGET none db = (ApiResponse.err 401 "Unauthorized", db) ∧
    recurringGET none q2 now db = (ApiResponse.err 401 "Unauthorized", db) :=
  ⟨rfl, rfl, rfl⟩

/-! ## Claim C7 — the anomaly scorer on tiny samples -/

/-- C7: on fewer observations than the configured minimum sample count,
the anomaly scorer returns the empty flag list (and, being a total
function of its input, raises nothing). -/
theorem score_small_sample (cfg : ScorerConfig) (obs : List Rat)
    (h : obs.length < cfg.minSamples) : score cfg obs = [] := by
  simp [score, h]

/-- C7, witness: three observations against the spec's default minimum
of 10. -/
theorem score_small_sample_witness :
    [(1 : Rat), 2, 3].length < 10 ∧
      score ⟨10, 95 / 100⟩ [(1 : Rat), 2, 3] = [] :=
  ⟨by decide, score_small_sample ⟨10, 95 / 100⟩ [(1 : Rat), 2, 3] (by decide)⟩

/-! ## Claim C9 — the average-expense guard -/

/-- C9: the statistics route's `averageExpense` is 0 whenever the
transaction count in the range is 0 (no division happens), and equals
the range total divided by the count whenever the count is positive. -/
theorem averageExpense_guard (db : List Expense) (uid : String)
    (s e : CalDate) :
    (transactionCount db uid s e = 0 → averageExpenseOf db uid s e = 0) ∧
    (0 < transactionCount db uid s e →
      averageExpenseOf db uid s e =
        totalExpenses db uid s e / (transactionCount db uid s e : Rat)) := by
  refine ⟨fun h => ?_, fun h => ?_⟩
  · simp [averageExpenseOf, averageExpense, h]
  · simp [averageExpenseOf, averageExpense, h]

/-- A one-row expense table for the C9 witness. -/
def c9Row : Expense :=
  { id := "e1", userId := "u1", amount := 40, description := "lunch"
    date := ⟨10, 2⟩, categoryId := "c1" }

/-- C9, witness: the guard evaluated on an empty table (count 0) and on
a one-row table (count 1). -/
theorem averageExpense_guard_witness :
    averageExpenseOf [] "u1" ⟨10, 1⟩ ⟨10, 28⟩ = 0 ∧
    averageExpenseOf [c9Row] "u1" ⟨10, 1⟩ ⟨10, 28⟩ =
      totalExpenses [c9Row] "u1" ⟨10, 1⟩ ⟨10, 28⟩ /
        (transactionCount [c9Row] "u1" ⟨10, 1⟩ ⟨10, 28⟩ : Rat) :=
  ⟨(averageExpense_guard [] "u1" ⟨10, 1⟩ ⟨10, 28⟩).1 (by decide),
   (averageExpense_guard [c9Row] "u1" ⟨10, 1⟩ ⟨10, 28⟩).2 (by decide)⟩

/-! ## Claim C3 — the trend enumeration of the parsing path -/

/-- C3, counterexample: on a forecast text announcing a 0% change, the
spec's rule (with its default 1% threshold) requires the trend `flat`,
but the parser reports `higher` — its trend is decided by the matched
word alone, and `flat` is not even a value of its two-valued union
type. -/
theorem trend_flat_counterexample :
    trendToSpec (parseForecastText
        "Next month you will spend $200, which is 0% higher than last month").trend
      ≠ specTrend 0 1 ∧
    (parseForecastText
        "Next month you will spend $200, which is 0% higher than last month").percentChange
      = some 0 := by
  refine ⟨?_, by decide⟩
  have h1 : trendToSpec (parseForecastText
      "Next month you will spend $200, which is 0% higher than last month").trend
      = TrendSpec.increase := by decide
  have h2 : specTrend 0 1 = TrendSpec.flat := by
    norm_num [specTrend]
  rw [h1, h2]
  exact fun h => TrendSpec.noConfusion h

/-- C3 (amended): the trend of a parsed forecast is the two-valued
union `'higher' | 'lower'`, decided purely by the `(higher|lower)` word
of the percent regex and defaulting to `'higher'` on no match; it is
never compared against a percent-change threshold, and no `flat` value
exists on this path. -/
theorem trend_two_valued_amended (s : String) :
    ((parseForecastText s).trend = Trend.higher ∨
      (parseForecastText s).trend = Trend.lower) ∧
    (findPercentMatch s.data = none →
      (parseForecastText s).trend = Trend.higher) ∧
    (∀ d w, findPercentMatch s.data = some (d, w) →
      (parseForecastText s).trend = w) := by
  refine ⟨?_, fun h => ?_, fun d w h => ?_⟩
  · cases hw : (parseForecastText s).trend
    · exact Or.inl rfl
    · exact Or.inr rfl
  · simp [parseForecastText, h]
  · simp [parseForecastText, h]

/-- C3, witness: the amended theorem evaluated on a matchless text and
on a text matching the word `lower`. -/
theorem trend_two_valued_witness :
    (parseForecastText "no numbers here").trend = Trend.higher ∧
    (parseForecastText "spending is 3% lower").trend = Trend.lower :=
  ⟨(trend_two_valued_amended "no numbers here").2.1 (by decide),
   (trend_two_valued_amended "spending is 3% lower").2.2
     ['3'] Trend.lower (by decide)⟩

/-! ## Claim C4 — the forecast GET is a pure read of the artifact -/

/-- C4: the forecast GET leaves the whole system state unchanged (the
artifact, the database and the pipeline-run count), and its response
depends only on the artifact read — two states agreeing on the artifact
receive identical responses whatever their database contents or
pipeline state, so the handler reads nothing else and invokes no
model code. -/
theorem forecast_get_read_only (st1 st2 : SystemState) (now : String) :
    (forecastRouteGET st1 now).2 = st1 ∧
    (st1.artifact = st2.artifact →
      (forecastRouteGET st1 now).1 = (forecastRouteGET st2 now).1) := by
  constructor
  · rcases st1 with ⟨a, db, n⟩
    cases a <;> rfl
  · intro h
    simp only [forecastRouteGET, getLatestForecast, h]
    cases hm : Except.map String.trim st2.artifact <;> simp [hm]

/-- C4, witness: two states with the same artifact but different
databases and pipeline counters; state preserved and responses equal. -/
theorem forecast_get_read_only_witness :
    (forecastRouteGET
        { artifact := Except.ok "You will spend $120, 5% higher"
          db := ⟨[], [], [], []⟩, pipelineRuns := 0 } "t").2 =
      { artifact := Except.ok "You will spend $120, 5% higher"
        db := ⟨[], [], [], []⟩, pipelineRuns := 0 } ∧
    (forecastRouteGET
        { artifact := Except.ok "You will spend $120, 5% higher"
          db := ⟨[], [], [], []⟩, pipelineRuns := 0 } "t").1 =
      (forecastRouteGET
        { artifact := Except.ok "You will spend $120, 5% higher"
          db := ⟨[⟨"e9", "u9", 1, "d", ⟨3, 1⟩, "c9"⟩], [], [], []⟩
          pipelineRuns := 7 } "t").1 :=
  ⟨(forecast_get_read_only
      { artifact := Except.ok "You will spend $120, 5% higher"
        db := ⟨[], [], [], []⟩, pipelineRuns := 0 }
      { artifact := Except.ok "You will spend $120, 5% higher"
        db := ⟨[⟨"e9", "u9", 1, "d", ⟨3, 1⟩, "c9"⟩], [], [], []⟩
        pipelineRuns := 7 } "t").1,
   (forecast_get_read_only
      { artifact := Except.ok "You will spend $120, 5% higher"
        db := ⟨[], [], [], []⟩, pipelineRuns := 0 }
      { artifact := Except.ok "You will spend $120, 5% higher"
        db := ⟨[⟨"e9", "u9", 1, "d", ⟨3, 1⟩, "c9"⟩], [], [], []⟩
        pipelineRuns := 7 } "t").2 rfl⟩

/-! ## Claim C8 — totality and defaults of `parseForecastText` -/

/-- A successful percent match captures a run starting with a digit. -/
theorem findPercentMatch_head_digit :
    ∀ (l d : List Char) (w : Trend), findPercentMatch l = some (d, w) →
      ∃ c t, d = c :: t ∧ c.isDigit = true := by
  intro l
  induction l with
  | nil => intro d w h; simp [findPercentMatch] at h
  | cons c rest ih =>
    intro d w h
    by_cases hc : c.isDigit
    · simp only [findPercentMatch, hc, if_true] at h
      cases hpt : percentTail ((c :: rest).drop
          ((c :: rest).takeWhile Char.isDigit).length) with
      | some w' =>
          rw [hpt] at h
          simp only [Option.some.injEq, Prod.mk.injEq] at h
          exact ⟨c, rest.takeWhile Char.isDigit,
            by simp [← h.1, List.takeWhile_cons, hc], hc⟩
      | none =>
          rw [hpt] at h
          exact ih d w h
    · simp only [findPercentMatch, hc, if_false] at h
      exact ih d w h

/-- `parseInt` on a digit-headed string is a number, not NaN. -/
theorem jsParseInt_digit_head (c : Char) (t : List Char)
    (hc : c.isDigit = true) : jsParseInt (c :: t) ≠ none := by
  simp [jsParseInt, List.takeWhile_cons, hc]

/-- C8: `parseForecastText` is total with the code's defaults — its
percent field is never NaN, a text with no `$`-number match yields
amount 0, and a text with no percent match yields percent 0 and trend
`'higher'`. -/
theorem parse_total_defaults (s : String) :
    (parseForecastText s).percentChange ≠ none ∧
    (findDollarMatch s.data = none → (parseForecastText s).amount = some 0) ∧
    (findPercentMatch s.data = none →
      (parseForecastText s).percentChange = some 0 ∧
      (parseForecastText s).trend = Trend.higher) := by
  refine ⟨?_, fun h => ?_, fun h => ?_⟩
  · cases hpm : findPercentMatch s.data with
    | none => simp [parseForecastText, hpm]
    | some dw =>
        obtain ⟨d, w⟩ := dw
        obtain ⟨c, t, hd, hc⟩ := findPercentMatch_head_digit s.data d w hpm
        subst hd
        simpa [parseForecastText, hpm] using jsParseInt_digit_head c t hc
  · simp [parseForecastText, h]
  · simp [parseForecastText, h]

/-- C8, witness: the defaults on a text with no matches at all. -/
theorem parse_total_defaults_witness :
    findDollarMatch "no forecast yet".data = none ∧
    (parseForecastText "no forecast yet").amount = some 0 ∧
    (parseForecastText "no forecast yet").percentChange = some 0 ∧
    (parseForecastText "no forecast yet").trend = Trend.higher :=
  ⟨by decide, (parse_total_defaults "no forecast yet").2.1 (by decide),
   ((parse_total_defaults "no forecast yet").2.2 (by decide)).1,
   ((parse_total_defaults "no forecast yet").2.2 (by decide)).2⟩

/-! ## Claim C10 — per-user isolation of the read paths -/

/-- Sorting inserts without adding or removing rows (expenses). -/
theorem mem_insertByDateDesc (a x : Expense) (l : List Expense) :
    a ∈ insertByDateDesc x l ↔ a = x ∨ a ∈ l := by
  induction l with
  | nil => simp [insertByDateDesc]
  | cons y ys ih =>
      simp only [insertByDateDesc]
      split
      · simp [List.mem_cons]
      · simp only [List.mem_cons, ih]
        tauto

/-- The expenses sort is a permutation at the level of membership. -/
theorem mem_sortByDateDesc (a : Expense) (l : List Expense) :
    a ∈ sortByDateDesc l ↔ a ∈ l := by
  induction l with
  | nil => simp [sortByDateDesc]
  | cons x xs ih => simp [sortByDateDesc, mem_insertByDateDesc, ih]

/-- Sorting inserts without adding or removing rows (recurring). -/
theorem mem_insertByStartDesc (a x : RecurringExpense)
    (l : List RecurringExpense) :
    a ∈ insertByStartDesc x l ↔ a = x ∨ a ∈ l := by
  induction l with
  | nil => simp [insertByStartDesc]
  | cons y ys ih =>
      simp only [insertByStartDesc]
      split
      · simp [List.mem_cons]
      · simp only [List.mem_cons, ih]
        tauto

/-- The recurring-expenses sort is a permutation at the level of
membership. -/
theorem mem_sortByStartDesc (a : RecurringExpense)
    (l : List RecurringExpense) :
    a ∈ sortByStartDesc l ↔ a ∈ l := by
  induction l with
  | nil => simp [sortByStartDesc]
  | cons x xs ih => simp [sortByStartDesc, mem_insertByStartDesc, ih]

/-- Filtering by a conjunction filters by each conjunct in turn. -/
theorem filter_and_split {α : Type} (p q : α → Bool) (l : List α) :
    l.filter (fun a => p a && q a) = (l.filter p).filter q := by
  induction l with
  | nil => rfl
  | cons x xs ih =>
      by_cases hp : p x <;> by_cases hq : q x <;>
        simp [List.filter_cons, hp, hq, ih]

/-- The optional clauses of the expenses filter array, without the
user clause. -/
def expenseOptFilters (q : ExpenseQuery) (r : Expense) : Bool :=
  (match q.startDate with | some d => dateLe d r.date | none => true)
  && (match q.endDate with | some d => dateLe r.date d | none => true)
  && (match q.categoryId with | some c => r.categoryId == c | none => true)
  && (match q.minAmount with | some a => decide (a ≤ r.amount) | none => true)
  && (match q.maxAmount with | some a => decide (r.amount ≤ a) | none => true)

/-- The expenses filter conjunction is the user clause and the optional
clauses. -/
theorem expenseFilters_split (uid : String) (q : ExpenseQuery) (r : Expense) :
    expenseFilters uid q r = ((r.userId == uid) && expenseOptFilters q r) := by
  cases h : r.userId == uid <;>
    simp [expenseFilters, expenseOptFilters, h, Bool.and_assoc]

/-- The optional clauses of the recurring-expenses filter array, without
the user clause. -/
def recurringOptFilters (q : RecurringQuery) (now : CalDate)
    (r : RecurringExpense) : Bool :=
  (match q.categoryId with | some c => r.categoryId == c | none => true)
  && (match q.frequency with | some f => r.frequency == f | none => true)
  && (if q.active == some "true" then
        match r.endDate with
        | none => true
        | some d => dateLe now d
      else true)

/-- The recurring filter conjunction is the user clause and the optional
clauses. -/
theorem recurringFilters_split (uid : String) (q : RecurringQuery)
    (now : CalDate) (r : RecurringExpense) :
    recurringFilters uid q now r =
      ((r.userId == uid) && recurringOptFilters q now r) := by
  cases h : r.userId == uid <;>
    simp [recurringFilters, recurringOptFilters, h, Bool.and_assoc]

/-- C10: both read paths are isolated per user — every row answered by
the expenses GET or the recurring-expenses GET belongs to the
authenticated user, and the answered lists are a function of that
user's own rows alone: two database states with the same rows for the
user produce identical responses under every combination of optional
query parameters. -/
theorem per_user_isolation (uid : String) (q : ExpenseQuery)
    (qr : RecurringQuery) (now : CalDate) (db db' : DbState) :
    (∀ r ∈ expensesQuery uid q db, r.userId = uid) ∧
    (db.expenses.filter (fun r => r.userId == uid) =
        db'.expenses.filter (fun r => r.userId == uid) →
      expensesQuery uid q db = expensesQuery uid q db') ∧
    (∀ r ∈ recurringQuery uid qr now db, r.userId = uid) ∧
    (db.recurring.filter (fun r => r.userId == uid) =
        db'.recurring.filter (fun r => r.userId == uid) →
      recurringQuery uid qr now db = recurringQuery uid qr now db') := by
  have keyE : ∀ l : List Expense, l.filter (expenseFilters uid q) =
      (l.filter (fun r => r.userId == uid)).filter (expenseOptFilters q) := by
    intro l
    rw [← filter_and_split]
    exact List.filter_congr fun r _ => expenseFilters_split uid q r
  have keyR : ∀ l : List RecurringExpense,
      l.filter (recurringFilters uid qr now) =
      (l.filter (fun r => r.userId == uid)).filter
        (recurringOptFilters qr now) := by
    intro l
    rw [← filter_and_split]
    exact List.filter_congr fun r _ => recurringFilters_split uid qr now r
  refine ⟨fun r hr => ?_, fun h => ?_, fun r hr => ?_, fun h => ?_⟩
  · rw [expensesQuery, mem_sortByDateDesc, List.mem_filter,
      expenseFilters_split] at hr
    exact eq_of_beq (Bool.and_eq_true .. ▸ hr.2).1
  · rw [expensesQuery, expensesQuery, keyE, keyE, h]
  · rw [recurringQuery, mem_sortByStartDesc, List.mem_filter,
      recurringFilters_split] at hr
    exact eq_of_beq (Bool.and_eq_true .. ▸ hr.2).1
  · rw [recurringQuery, recurringQuery, keyR, keyR, h]

/-- Witness database: user u1's rows plus one foreign expense and one
foreign recurring row. -/
def dbW0 : DbState :=
  { expenses := [⟨"e1", "u1", 5, "own", ⟨100, 3⟩, "c1"⟩,
                 ⟨"e2", "u2", 9, "theirs", ⟨100, 4⟩, "c2"⟩]
    budgets := []
    categories := []
    recurring := [⟨"r1", "u1", 5, "own", "monthly", ⟨100, 1⟩, none, "c1"⟩,
                  ⟨"r2", "u2", 9, "theirs", "weekly", ⟨100, 2⟩,
                    some ⟨200, 1⟩, "c2"⟩] }

/-- Witness database: the same u1 rows as `dbW0` but different foreign
rows. -/
def dbW1 : DbState :=
  { expenses := [⟨"e1", "u1", 5, "own", ⟨100, 3⟩, "c1"⟩,
                 ⟨"e7", "u3", 2, "other", ⟨90, 8⟩, "c7"⟩]
    budgets := []
    categories := []
    recurring := [⟨"r1", "u1", 5, "own", "monthly", ⟨100, 1⟩, none, "c1"⟩,
                  ⟨"r8", "u3", 1, "other", "yearly", ⟨80, 2⟩, none, "c8"⟩] }

/-- C10, witness: with unrelated users' rows replaced wholesale, the
responses served to u1 are unchanged. -/
theorem per_user_isolation_witness :
    expensesQuery "u1" ⟨none, none, none, none, none⟩ dbW0 =
      expensesQuery "u1" ⟨none, none, none, none, none⟩ dbW1 ∧
    recurringQuery "u1" ⟨none, none, none⟩ ⟨100, 1⟩ dbW0 =
      recurringQuery "u1" ⟨none, none, none⟩ ⟨100, 1⟩ dbW1 :=
  ⟨(per_user_isolation "u1" ⟨none, none, none, none, none⟩
      ⟨none, none, none⟩ ⟨100, 1⟩ dbW0 dbW1).2.1 (by decide),
   (per_user_isolation "u1" ⟨none, none, none, none, none⟩
      ⟨none, none, none⟩ ⟨100, 1⟩ dbW0 dbW1).2.2.2 (by decide)⟩

/-! ## Claim C5 — shape of the `expensesOverTime` series -/

/-- The calendar order, in arithmetic form. -/
theorem dateLe_iff (a b : CalDate) :
    dateLe a b = true ↔ (a.ym < b.ym ∨ (a.ym = b.ym ∧ a.day ≤ b.day)) := by
  simp [dateLe]

/-- The strict calendar order, in arithmetic form. -/
theorem dateLt_iff (a b : CalDate) :
    dateLt a b = true ↔ (a.ym < b.ym ∨ (a.ym = b.ym ∧ a.day < b.day)) := by
  simp [dateLt]

/-- A date with a real day of month falls in the window of month `m`
exactly when its month index is `m`. -/
theorem inMonth_iff (m : Nat) (d : CalDate) (hd : 1 ≤ d.day) :
    inMonth m d = true ↔ d.ym = m := by
  simp only [inMonth, Bool.and_eq_true, dateLe_iff, dateLt_iff]
  omega

/-- The bound of the month loop, in arithmetic form. -/
theorem dateLe_mk_one (m : Nat) (e : CalDate) :
    dateLe ⟨m, 1⟩ e = true ↔ (m < e.ym ∨ (m = e.ym ∧ 1 ≤ e.day)) := by
  simp [dateLe]

/-- The generated month indices are exactly those from the start month
on whose first day is still within the end bound. -/
theorem mem_monthsFrom (m0 : Nat) (e : CalDate) (m : Nat) :
    m ∈ monthsFrom m0 e ↔ (m0 ≤ m ∧ dateLe ⟨m, 1⟩ e = true) := by
  induction m0, e using monthsFrom.induct with
  | case1 m0 e hcond ih =>
      rw [monthsFrom, if_pos hcond]
      rw [dateLe_mk_one] at hcond
      simp only [List.mem_cons, ih, dateLe_mk_one] at *
      omega
  | case2 m0 e hcond =>
      rw [monthsFrom, if_neg hcond]
      rw [dateLe_mk_one] at hcond
      simp only [List.not_mem_nil, false_iff, dateLe_mk_one]
      omega

/-- The generated month indices are strictly increasing. -/
theorem chain_monthsFrom (m0 : Nat) (e : CalDate) :
    List.Chain' (· < ·) (monthsFrom m0 e) := by
  induction m0, e using monthsFrom.induct with
  | case1 m0 e hcond ih =>
      rw [monthsFrom, if_pos hcond, List.chain'_cons']
      refine ⟨fun b hb => ?_, ih⟩
      have hmem : b ∈ monthsFrom (m0 + 1) e := List.mem_of_mem_head? hb
      have := (mem_monthsFrom (m0 + 1) e b).mp hmem
      omega
  | case2 m0 e hcond =>
      rw [monthsFrom, if_neg hcond]
      exact List.chain'_nil

/-- The generated month indices hold no duplicates. -/
theorem nodup_monthsFrom (m0 : Nat) (e : CalDate) :
    (monthsFrom m0 e).Nodup :=
  (List.chain'_iff_pairwise.mp (chain_monthsFrom m0 e)).nodup

/-- Unfolding a summed selection one row at a time. -/
theorem sumBy_cons (p : Expense → Bool) (r : Expense) (db : List Expense) :
    sumBy p (r :: db) = (if p r then r.amount else 0) + sumBy p db := by
  by_cases h : p r <;> simp [sumBy, List.filter_cons, h]

/-- Two selections agreeing on every row sum alike. -/
theorem sumBy_congr (p q : Expense → Bool) (db : List Expense)
    (h : ∀ r ∈ db, p r = q r) : sumBy p db = sumBy q db := by
  unfold sumBy
  rw [List.filter_congr h]

/-- A selection rejecting every row sums to 0. -/
theorem sumBy_eq_zero (p : Expense → Bool) (db : List Expense)
    (h : ∀ r ∈ db, p r = false) : sumBy p db = 0 := by
  unfold sumBy
  rw [List.filter_eq_nil_iff.mpr (fun a ha => by simp [h a ha])]
  rfl

/-- Summing a point indicator over a duplicate-free index list. -/
theorem sum_map_ite_eq (L : List Nat) (hL : L.Nodup) (k : Nat) (a : Rat) :
    (L.map (fun m => if m = k then a else 0)).sum = if k ∈ L then a else 0 := by
  induction L with
  | nil => simp
  | cons x xs ih =>
      rw [List.nodup_cons] at hL
      simp only [List.map_cons, List.sum_cons, ih hL.2, List.mem_cons]
      by_cases hx : x = k
      · subst hx
        simp [hL.1]
      · have hkx : ¬k = x := fun h => hx h.symm
        by_cases hk : k ∈ xs <;> simp [hk, hkx, hx]

/-- Sums of pointwise-added maps split. -/
theorem sum_map_add (L : List Nat) (f g : Nat → Rat) :
    (L.map (fun m => f m + g m)).sum = (L.map f).sum + (L.map g).sum := by
  induction L with
  | nil => simp
  | cons x xs ih =>
      simp only [List.map_cons, List.sum_cons, ih]
      ring

/-- Exchanging the per-month sums with the per-row sum: over a
duplicate-free month list, the months' totals add up to the sum of the
user's rows whose month lies in the list. -/
theorem sum_monthTotal (uid : String) (L : List Nat) (hL : L.Nodup) :
    ∀ db : List Expense, (∀ r ∈ db, 1 ≤ r.date.day) →
      (L.map (fun m => monthTotal db uid m)).sum =
        sumBy (fun r => r.userId == uid && decide (r.date.ym ∈ L)) db := by
  intro db
  induction db with
  | nil =>
      intro _
      have : ∀ m ∈ L, monthTotal [] uid m = 0 := fun m _ => rfl
      rw [List.map_congr_left this]
      simp [sumBy]
  | cons r db ih =>
      intro hdays
      have hd : 1 ≤ r.date.day := hdays r (List.mem_cons_self r db)
      have hrest : ∀ x ∈ db, 1 ≤ x.date.day :=
        fun x hx => hdays x (List.mem_cons_of_mem r hx)
      have step : ∀ m ∈ L, monthTotal (r :: db) uid m =
          (if r.userId == uid && inMonth m r.date then r.amount else 0) +
            monthTotal db uid m :=
        fun m _ => sumBy_cons _ r db
      rw [List.map_congr_left step, sum_map_add, ih hrest, sumBy_cons]
      congr 1
      have hpt : ∀ m ∈ L,
          (if r.userId == uid && inMonth m r.date then r.amount else 0) =
          (if m = r.date.ym then
            (if r.userId == uid then r.amount else 0) else 0) := by
        intro m _
        by_cases hu : (r.userId == uid) = true
        · by_cases hm : m = r.date.ym
          · subst hm
            have hin : inMonth r.date.ym r.date = true :=
              (inMonth_iff r.date.ym r.date hd).mpr rfl
            simp [hu, hin]
          · have hin : inMonth m r.date = false := by
              rw [Bool.eq_false_iff]
              intro hcon
              exact hm ((inMonth_iff m r.date hd).mp hcon).symm
            simp [hu, hm, hin]
        · simp only [Bool.not_eq_true] at hu
          simp [hu]
      rw [List.map_congr_left hpt, sum_map_ite_eq L hL r.date.ym]
      by_cases hu : (r.userId == uid) = true <;>
        by_cases hym : r.date.ym ∈ L <;> simp [hu, hym]

/-- C5: for a user's records lying inside the requested range (and real
calendar days), the `expensesOverTime` series has strictly increasing
month entries, exactly one entry for each calendar month between the
start month and the end month (months with no expenses included, with
total 0 — see the third conjunct), and its totals sum to the same grand
total the route computes over the raw records of the range. -/
theorem expensesOverTime_series (db : List Expense) (uid : String)
    (s e : CalDate) (he : 1 ≤ e.day)
    (hdays : ∀ r ∈ db, 1 ≤ r.date.day)
    (hin : ∀ r ∈ db, r.userId = uid →
      (dateLe s r.date = true ∧ dateLe r.date e = true)) :
    List.Chain' (fun a b => a.month < b.month) (expensesOverTime db uid s e) ∧
    (∀ m : Nat, (∃ x ∈ expensesOverTime db uid s e, x.month = m) ↔
      (s.ym ≤ m ∧ m ≤ e.ym)) ∧
    (∀ x ∈ expensesOverTime db uid s e,
      (∀ r ∈ db, r.userId = uid → r.date.ym ≠ x.month) → x.total = 0) ∧
    ((expensesOverTime db uid s e).map MonthEntry.total).sum =
      totalExpenses db uid s e := by
  refine ⟨?_, ?_, ?_, ?_⟩
  · rw [expensesOverTime, List.chain'_map]
    exact chain_monthsFrom s.ym e
  · intro m
    constructor
    · rintro ⟨x, hx, hxm⟩
      rw [expensesOverTime, List.mem_map] at hx
      obtain ⟨m', hm', hfm⟩ := hx
      have hxm' : x.month = m' := by rw [← hfm]
      rw [hxm'] at hxm
      have h2 := (mem_monthsFrom s.ym e m').mp hm'
      rw [dateLe_mk_one] at h2
      omega
    · rintro ⟨h1, h2⟩
      refine ⟨{ month := m, total := monthTotal db uid m
                count := monthCount db uid m }, ?_, rfl⟩
      rw [expensesOverTime, List.mem_map]
      exact ⟨m, (mem_monthsFrom s.ym e m).mpr
        ⟨h1, (dateLe_mk_one m e).mpr (by omega)⟩, rfl⟩
  · intro x hx hnone
    rw [expensesOverTime, List.mem_map] at hx
    obtain ⟨m', hm', rfl⟩ := hx
    apply sumBy_eq_zero
    intro r hr
    by_cases hu : (r.userId == uid) = true
    · have hiu : r.userId = uid := eq_of_beq hu
      have hne : r.date.ym ≠ m' := hnone r hr hiu
      have hinm : inMonth m' r.date = false := by
        rw [Bool.eq_false_iff]
        intro hcon
        exact hne ((inMonth_iff m' r.date (hdays r hr)).mp hcon)
      simp [hu, hinm]
    · simp only [Bool.not_eq_true] at hu
      simp [hu]
  · rw [expensesOverTime, List.map_map]
    have hcomp : (MonthEntry.total ∘ fun m =>
        ({ month := m, total := monthTotal db uid m
           count := monthCount db uid m } : MonthEntry)) =
        fun m => monthTotal db uid m := rfl
    rw [hcomp,
      sum_monthTotal uid (monthsFrom s.ym e) (nodup_monthsFrom s.ym e) db hdays]
    apply sumBy_congr
    intro r hr
    by_cases hu : (r.userId == uid) = true
    · have hiu : r.userId = uid := eq_of_beq hu
      obtain ⟨h1, h2⟩ := hin r hr hiu
      have h1a := (dateLe_iff s r.date).mp h1
      have h2a := (dateLe_iff r.date e).mp h2
      have hmem : r.date.ym ∈ monthsFrom s.ym e := by
        rw [mem_monthsFrom, dateLe_mk_one]
        omega
      simp [inRange, hu, hmem, h1, h2]
    · simp only [Bool.not_eq_true] at hu
      simp [inRange, hu]

/-- A three-row table for the C5 witness: two u1 rows inside the range,
one foreign row far outside it. -/
def c5Db : List Expense :=
  [⟨"a1", "u1", 7, "coffee", ⟨24, 20⟩, "c1"⟩,
   ⟨"a2", "u1", 5, "book", ⟨26, 2⟩, "c1"⟩,
   ⟨"a3", "u2", 100, "other user", ⟨10, 5⟩, "c2"⟩]

/-- C5, witness: over the range from day 15 of month 24 to day 10 of
month 26, the series totals add up to the range's grand total, and the
empty middle month 25 is present. -/
theorem expensesOverTime_series_witness :
    ((expensesOverTime c5Db "u1" ⟨24, 15⟩ ⟨26, 10⟩).map MonthEntry.total).sum =
      totalExpenses c5Db "u1" ⟨24, 15⟩ ⟨26, 10⟩ ∧
    ((∃ x ∈ expensesOverTime c5Db "u1" ⟨24, 15⟩ ⟨26, 10⟩, x.month = 25) ↔
      ((⟨24, 15⟩ : CalDate).ym ≤ 25 ∧ 25 ≤ (⟨26, 10⟩ : CalDate).ym)) :=
  ⟨(expensesOverTime_series c5Db "u1" ⟨24, 15⟩ ⟨26, 10⟩ (by decide)
      (by decide) (by decide)).2.2.2,
   (expensesOverTime_series c5Db "u1" ⟨24, 15⟩ ⟨26, 10⟩ (by decide)
      (by decide) (by decide)).2.1 25⟩

end SmartSpend
